import Mathlib

/-!
Verification of the geometric layout core of the programmatic-graphics
repository: shape builders (triangle SSS, quadrilateral presets), derived
geometry queries (side lengths, vertex angles, outward normals, sector areas),
annotation placement (label offsets with degenerate-direction fallbacks) and
the dot-and-cross lone-pair solver and preset table.

Real-valued numpy computations are embedded over `ℝ` (floating point modelled
by exact reals); the lone-pair solver and molecule preset table, which only
use exact arithmetic, are embedded over `ℚ`.  Each `*_utils` namespace
mirrors the source module of the same name.
-/

namespace ProgGraphics

/-- A 2D point / vector: a numpy array of shape (2,). -/
structure Pt where
  x : ℝ
  y : ℝ

instance : Add Pt := ⟨fun p q => ⟨p.x + q.x, p.y + q.y⟩⟩

instance : Sub Pt := ⟨fun p q => ⟨p.x - q.x, p.y - q.y⟩⟩

instance : Neg Pt := ⟨fun p => ⟨-p.x, -p.y⟩⟩

/-- Scalar multiple `t * p` (numpy broadcasting of a scalar over a point). -/
noncomputable def Pt.smul (t : ℝ) (p : Pt) : Pt := ⟨t * p.x, t * p.y⟩

/-- Scalar division `p / t` (numpy broadcasting). -/
noncomputable def Pt.sdiv (p : Pt) (t : ℝ) : Pt := ⟨p.x / t, p.y / t⟩

/-- `np.dot` for 2-vectors. -/
noncomputable def dot (p q : Pt) : ℝ := p.x * q.x + p.y * q.y

/-- `np.linalg.norm` for 2-vectors. -/
noncomputable def norm2 (p : Pt) : ℝ := Real.sqrt (p.x ^ 2 + p.y ^ 2)

/-- `np.cross`-style 2D cross product, used to state non-collinearity. -/
noncomputable def cross (p q : Pt) : ℝ := p.x * q.y - p.y * q.x

/-- `np.radians`. -/
noncomputable def radians (d : ℝ) : ℝ := d * Real.pi / 180

/-- `np.degrees`. -/
noncomputable def degrees (r : ℝ) : ℝ := r * 180 / Real.pi

/-- `np.clip t lo hi`. -/
noncomputable def clip (t lo hi : ℝ) : ℝ := max lo (min hi t)

/-- Application of the rotation matrix `[[cos θ, -sin θ], [sin θ, cos θ]]`
to a single point (θ in radians). -/
noncomputable def rotatePoint (θ : ℝ) (p : Pt) : Pt :=
  ⟨Real.cos θ * p.x - Real.sin θ * p.y, Real.sin θ * p.x + Real.cos θ * p.y⟩

/-- `np.mean(vertices, axis=0)`, the centroid of a vertex array; also
`quadrilateral_utils.get_centroid`. -/
noncomputable def get_centroid {n : ℕ} (vertices : Fin n → Pt) : Pt :=
  ⟨(∑ i, (vertices i).x) / n, (∑ i, (vertices i).y) / n⟩

namespace quadrilateral_utils

/-- `quadrilateral_utils.rotate_points`: rotate points around a center by
an angle in degrees. -/
noncomputable def rotate_points {n : ℕ} (points : Fin n → Pt) (angle_deg : ℝ)
    (center : Pt) : Fin n → Pt :=
  fun i => rotatePoint (radians angle_deg) (points i - center) + center

/-- `quadrilateral_utils.get_square`. -/
noncomputable def get_square (side_length : ℝ) (center : Pt) (rotation : ℝ) :
    Fin 4 → Pt :=
  let half := side_length / 2
  let vertices : Fin 4 → Pt :=
    ![⟨-half, -half⟩, ⟨half, -half⟩, ⟨half, half⟩, ⟨-half, half⟩]
  let vertices :=
    if rotation ≠ 0 then rotate_points vertices rotation ⟨0, 0⟩ else vertices
  fun i => vertices i + center

/-- `quadrilateral_utils.get_rectangle`. -/
noncomputable def get_rectangle (width height : ℝ) (center : Pt) (rotation : ℝ) :
    Fin 4 → Pt :=
  let hw := width / 2
  let hh := height / 2
  let vertices : Fin 4 → Pt :=
    ![⟨-hw, -hh⟩, ⟨hw, -hh⟩, ⟨hw, hh⟩, ⟨-hw, hh⟩]
  let vertices :=
    if rotation ≠ 0 then rotate_points vertices rotation ⟨0, 0⟩ else vertices
  fun i => vertices i + center

/-- `quadrilateral_utils.get_parallelogram`. -/
noncomputable def get_parallelogram (base side angle_deg : ℝ) (center : Pt)
    (rotation : ℝ) : Fin 4 → Pt :=
  let angle_rad := radians angle_deg
  let offset_x := side * Real.cos angle_rad
  let offset_y := side * Real.sin angle_rad
  let vertices : Fin 4 → Pt :=
    ![⟨0, 0⟩, ⟨base, 0⟩, ⟨base + offset_x, offset_y⟩, ⟨offset_x, offset_y⟩]
  let centroid := get_centroid vertices
  let vertices := fun i => vertices i - centroid + center
  if rotation ≠ 0 then rotate_points vertices rotation center else vertices

/-- `quadrilateral_utils.get_rhombus`: a parallelogram with equal base and
side. -/
noncomputable def get_rhombus (side angle_deg : ℝ) (center : Pt) (rotation : ℝ) :
    Fin 4 → Pt :=
  get_parallelogram side side angle_deg center rotation

/-- `quadrilateral_utils.get_trapezium`. -/
noncomputable def get_trapezium (parallel_top parallel_bottom height offset : ℝ)
    (center : Pt) (rotation : ℝ) : Fin 4 → Pt :=
  let hb := parallel_bottom / 2
  let ht := parallel_top / 2
  let vertices : Fin 4 → Pt :=
    ![⟨-hb, 0⟩, ⟨hb, 0⟩, ⟨offset + ht, height⟩, ⟨offset - ht, height⟩]
  let centroid := get_centroid vertices
  let vertices := fun i => vertices i - centroid + center
  if rotation ≠ 0 then rotate_points vertices rotation center else vertices

/-- `quadrilateral_utils.get_isosceles_trapezium`. -/
noncomputable def get_isosceles_trapezium (parallel_top parallel_bottom height : ℝ)
    (center : Pt) (rotation : ℝ) : Fin 4 → Pt :=
  get_trapezium parallel_top parallel_bottom height 0 center rotation

/-- `quadrilateral_utils.get_kite`. -/
noncomputable def get_kite (d1 d2 split_ratio : ℝ) (center : Pt) (rotation : ℝ) :
    Fin 4 → Pt :=
  let h1 := d1 / 2
  let v_bottom := d2 * split_ratio
  let v_top := d2 * (1 - split_ratio)
  let vertices : Fin 4 → Pt :=
    ![⟨-h1, 0⟩, ⟨0, -v_bottom⟩, ⟨h1, 0⟩, ⟨0, v_top⟩]
  let vertices := fun i => vertices i + center
  if rotation ≠ 0 then rotate_points vertices rotation center else vertices

/-- The direction argument of `quadrilateral_utils.draw_vertex_label`:
the string keys of the module's `DIRECTIONS` table plus `'auto'`. -/
inductive QuadLabelDirection where
  | auto
  | above
  | below
  | left
  | right
  | aboveLeft
  | aboveRight
  | belowLeft
  | belowRight

/-- The label-position computation of `quadrilateral_utils.draw_vertex_label`
(the pure part of the function: everything except the final text draw).
`centroid = none` models passing `centroid=None`. -/
noncomputable def draw_vertex_label_pos (vertex : Pt) (direction : QuadLabelDirection)
    (distance : ℝ) (centroid : Option Pt) : Pt :=
  let dir_vec : Pt :=
    match direction, centroid with
    | QuadLabelDirection.auto, some c =>
        Pt.sdiv (vertex - c) (norm2 (vertex - c) + 1e-10)
    | QuadLabelDirection.auto, none => ⟨0, 1⟩
    | QuadLabelDirection.above, _ => ⟨0, 1⟩
    | QuadLabelDirection.below, _ => ⟨0, -1⟩
    | QuadLabelDirection.left, _ => ⟨-1, 0⟩
    | QuadLabelDirection.right, _ => ⟨1, 0⟩
    | QuadLabelDirection.aboveLeft, _ => ⟨-0.707, 0.707⟩
    | QuadLabelDirection.aboveRight, _ => ⟨0.707, 0.707⟩
    | QuadLabelDirection.belowLeft, _ => ⟨-0.707, -0.707⟩
    | QuadLabelDirection.belowRight, _ => ⟨0.707, -0.707⟩
  vertex + Pt.smul distance dir_vec

end quadrilateral_utils

namespace triangle_utils

/-- `triangle_utils.get_triangle_vertices_from_sss`.  The `ValueError` raised
on a triangle-inequality violation is modelled as `none`. -/
noncomputable def get_triangle_vertices_from_sss (a b c : ℝ) (base_center : Pt)
    (base_angle : ℝ) : Option (Fin 3 → Pt) :=
  if ¬(a + b > c ∧ b + c > a ∧ a + c > b) then none
  else
    let half_c := c / 2
    let A : Pt := ⟨-half_c, 0⟩
    let B : Pt := ⟨half_c, 0⟩
    let cos_A := clip ((b ^ 2 + c ^ 2 - a ^ 2) / (2 * b * c)) (-1) 1
    let angle_A := Real.arccos cos_A
    let C : Pt := A + Pt.smul b ⟨Real.cos angle_A, Real.sin angle_A⟩
    let A := if base_angle ≠ 0 then rotatePoint (radians base_angle) A else A
    let B := if base_angle ≠ 0 then rotatePoint (radians base_angle) B else B
    let C := if base_angle ≠ 0 then rotatePoint (radians base_angle) C else C
    some ![A + base_center, B + base_center, C + base_center]

/-- `triangle_utils.get_side_midpoint`. -/
noncomputable def get_side_midpoint (vertices : Fin 3 → Pt) (side_index : Fin 3) : Pt :=
  Pt.sdiv (vertices side_index + vertices (side_index + 1)) 2

/-- `triangle_utils.get_side_length`. -/
noncomputable def get_side_length (vertices : Fin 3 → Pt) (side_index : Fin 3) : ℝ :=
  norm2 (vertices (side_index + 1) - vertices side_index)

/-- `triangle_utils.get_outward_direction`. -/
noncomputable def get_outward_direction (vertices : Fin 3 → Pt) (side_index : Fin 3) : Pt :=
  let i := side_index
  let j := side_index + 1
  let k := side_index + 2
  let side_vec := vertices j - vertices i
  let perp : Pt := ⟨-side_vec.y, side_vec.x⟩
  let perp := Pt.sdiv perp (norm2 perp)
  let midpoint := Pt.sdiv (vertices i + vertices j) 2
  let to_opposite := vertices k - midpoint
  if dot perp to_opposite > 0 then -perp else perp

/-- `triangle_utils.get_vertex_angle`. -/
noncomputable def get_vertex_angle (vertices : Fin 3 → Pt) (vertex_index : Fin 3) : ℝ :=
  let v1 := vertices (vertex_index - 1) - vertices vertex_index
  let v2 := vertices (vertex_index + 1) - vertices vertex_index
  let cos_angle := clip (dot v1 v2 / (norm2 v1 * norm2 v2)) (-1) 1
  degrees (Real.arccos cos_angle)

end triangle_utils

namespace circle_utils

/-- `circle_utils.point_on_circle`. -/
noncomputable def point_on_circle (center : Pt) (radius : ℝ) (angle_degrees : ℝ) : Pt :=
  let angle_rad := radians angle_degrees
  ⟨center.x + radius * Real.cos angle_rad, center.y + radius * Real.sin angle_rad⟩

/-- `circle_utils.get_chord_length`. -/
noncomputable def get_chord_length (radius angle1_degrees angle2_degrees : ℝ) : ℝ :=
  let angle_diff := |angle2_degrees - angle1_degrees|
  let angle_diff := if angle_diff > 180 then 360 - angle_diff else angle_diff
  2 * radius * Real.sin (radians (angle_diff / 2))

/-- `circle_utils.get_arc_length`. -/
noncomputable def get_arc_length (radius angle1_degrees angle2_degrees : ℝ) : ℝ :=
  let angle_diff := |angle2_degrees - angle1_degrees|
  let angle_diff := if angle_diff > 180 then 360 - angle_diff else angle_diff
  radius * radians angle_diff

/-- `circle_utils.get_sector_area`. -/
noncomputable def get_sector_area (radius angle1_degrees angle2_degrees : ℝ) : ℝ :=
  let angle_diff := |angle2_degrees - angle1_degrees|
  let angle_diff := if angle_diff > 180 then 360 - angle_diff else angle_diff
  0.5 * radius ^ 2 * radians angle_diff

/-- `circle_utils.get_segment_area`. -/
noncomputable def get_segment_area (radius angle1_degrees angle2_degrees : ℝ) : ℝ :=
  let angle_diff := |angle2_degrees - angle1_degrees|
  let angle_diff := if angle_diff > 180 then 360 - angle_diff else angle_diff
  let theta := radians angle_diff
  0.5 * radius ^ 2 * (theta - Real.sin theta)

/-- The direction argument of `circle_utils.draw_label`: one of the direction
strings, or a numeric angle in degrees. -/
inductive CircleLabelDirection where
  | auto
  | above
  | below
  | left
  | right
  | angleDeg (d : ℝ)

/-- The label-position computation of `circle_utils.draw_label` (the pure part
of the function: everything except the final text draw).
`reference_point = none` models passing `reference_point=None`. -/
noncomputable def draw_label_pos (position : Pt) (direction : CircleLabelDirection)
    (distance : ℝ) (reference_point : Option Pt) : Pt :=
  let offset_dir : Pt :=
    match direction, reference_point with
    | CircleLabelDirection.auto, some ref =>
        let od := position - ref
        if norm2 od > 1e-10 then Pt.sdiv od (norm2 od) else ⟨0, 1⟩
    | CircleLabelDirection.auto, none => ⟨0, 1⟩
    | CircleLabelDirection.above, _ => ⟨0, 1⟩
    | CircleLabelDirection.below, _ => ⟨0, -1⟩
    | CircleLabelDirection.left, _ => ⟨-1, 0⟩
    | CircleLabelDirection.right, _ => ⟨1, 0⟩
    | CircleLabelDirection.angleDeg d, _ =>
        ⟨Real.cos (radians d), Real.sin (radians d)⟩
  position + Pt.smul distance offset_dir

end circle_utils

namespace dotcross_utils

/-- Python's `%` on rationals with positive modulus 360 (`gap_mid % 360`). -/
def mod360 (t : ℚ) : ℚ := t - 360 * ⌊t / 360⌋

/-- Descending lexicographic order on `(gap_size, gap_mid)` pairs, as used by
`gaps.sort(reverse=True)` (stable descending sort of tuples). -/
def gapGe (a b : ℚ × ℚ) : Prop := b.1 < a.1 ∨ (a.1 = b.1 ∧ b.2 ≤ a.2)

instance : DecidableRel gapGe := fun a b => by
  unfold gapGe
  infer_instance

/-- The lone-pair-angle solver of `dotcross_utils.parse_smiles` (the block
computing `lone_pair_angles` from the sorted bonded directions and the number
of lone pairs needed, source lines 716-754). -/
def lone_pair_angles (bonded_directions : List ℚ) (num_lone_pairs : ℕ) : List ℚ :=
  if bonded_directions.length = 0 then
    (List.range num_lone_pairs).map (fun j => (j : ℚ) * 360 / (num_lone_pairs : ℚ))
  else
    let sorted := bonded_directions.insertionSort (· ≤ ·)
    if sorted.length = 1 then
      let base_angle := sorted.getD 0 0 + 180
      if num_lone_pairs = 1 then [base_angle]
      else if num_lone_pairs = 2 then [base_angle - 30, base_angle + 30]
      else if num_lone_pairs = 3 then
        [base_angle - 45, base_angle, base_angle + 45]
      else []
    else
      let gaps := (List.range sorted.length).map (fun j =>
        let gap_start := sorted.getD j 0
        let gap_end := sorted.getD ((j + 1) % sorted.length) 0
        let gap_end := if gap_end < gap_start then gap_end + 360 else gap_end
        (gap_end - gap_start, mod360 ((gap_start + gap_end) / 2)))
      let gaps := gaps.insertionSort gapGe
      ((gaps.take (min num_lone_pairs gaps.length)).map Prod.snd)

/-- An atom record of `dotcross_utils.PRESET_MOLECULES` (covalent entries
carry only element and position; ionic entries also carry charge,
`show_electrons` and possibly `transferred`). -/
structure PresetAtom where
  element : String
  position : ℚ × ℚ
  charge : Option String := none
  show_electrons : Option ℕ := none
  transferred : Option ℕ := none
deriving DecidableEq

/-- A molecule record of `dotcross_utils.PRESET_MOLECULES` (ionic entries
have no `bonds`/`lone_pairs` keys, modelled as the empty default). -/
structure Molecule where
  type : String
  description : String
  atoms : List PresetAtom
  bonds : List (ℕ × ℕ × ℕ) := []
  lone_pairs : List (ℕ × List ℚ) := []
deriving DecidableEq

/-- The `'H₂O'` entry of `PRESET_MOLECULES`. -/
def waterMolecule : Molecule where
  type := "covalent"
  description := "Water - bent molecule with 2 lone pairs on oxygen"
  atoms := [{ element := "O", position := (0, 0) },
            { element := "H", position := (-3/4, -3/5) },
            { element := "H", position := (3/4, -3/5) }]
  bonds := [(0, 1, 1), (0, 2, 1)]
  lone_pairs := [(0, [110, 70])]

/-- `dotcross_utils.PRESET_MOLECULES` (decimal position literals written as
exact rationals: 0.75 = 3/4, 0.6 = 3/5, 0.55 = 11/20, 0.8 = 4/5, 0.9 = 9/10,
1.5 = 3/2, 1.8 = 9/5). -/
def PRESET_MOLECULES : List (String × Molecule) :=
  [("H₂", { type := "covalent"
            description := "Hydrogen molecule - single covalent bond"
            atoms := [{ element := "H", position := (-1/2, 0) },
                      { element := "H", position := (1/2, 0) }]
            bonds := [(0, 1, 1)]
            lone_pairs := [] }),
   ("Cl₂", { type := "covalent"
             description := "Chlorine molecule - single covalent bond, 6 lone pairs total"
             atoms := [{ element := "Cl", position := (-1/2, 0) },
                       { element := "Cl", position := (1/2, 0) }]
             bonds := [(0, 1, 1)]
             lone_pairs := [(0, [90, 180, 270]), (1, [90, 0, 270])] }),
   ("O₂", { type := "covalent"
            description := "Oxygen molecule - double covalent bond"
            atoms := [{ element := "O", position := (-1/2, 0) },
                      { element := "O", position := (1/2, 0) }]
            bonds := [(0, 1, 2)]
            lone_pairs := [(0, [90, 270]), (1, [90, 270])] }),
   ("N₂", { type := "covalent"
            description := "Nitrogen molecule - triple covalent bond"
            atoms := [{ element := "N", position := (-1/2, 0) },
                      { element := "N", position := (1/2, 0) }]
            bonds := [(0, 1, 3)]
            lone_pairs := [(0, [180]), (1, [0])] }),
   ("HCl", { type := "covalent"
             description := "Hydrogen chloride - single covalent bond"
             atoms := [{ element := "H", position := (-1/2, 0) },
                       { element := "Cl", position := (1/2, 0) }]
             bonds := [(0, 1, 1)]
             lone_pairs := [(1, [90, 0, 270])] }),
   ("HF", { type := "covalent"
            description := "Hydrogen fluoride - single covalent bond"
            atoms := [{ element := "H", position := (-1/2, 0) },
                      { element := "F", position := (1/2, 0) }]
            bonds := [(0, 1, 1)]
            lone_pairs := [(1, [90, 0, 270])] }),
   ("H₂O", waterMolecule),
   ("H₂S", { type := "covalent"
             description := "Hydrogen sulphide - similar to water"
             atoms := [{ element := "S", position := (0, 0) },
                       { element := "H", position := (-3/4, -3/5) },
                       { element := "H", position := (3/4, -3/5) }]
             bonds := [(0, 1, 1), (0, 2, 1)]
             lone_pairs := [(0, [110, 70])] }),
   ("NH₃", { type := "covalent"
             description := "Ammonia - pyramidal with 1 lone pair on nitrogen"
             atoms := [{ element := "N", position := (0, 0) },
                       { element := "H", position := (-4/5, -11/20) },
                       { element := "H", position := (0, -9/10) },
                       { element := "H", position := (4/5, -11/20) }]
             bonds := [(0, 1, 1), (0, 2, 1), (0, 3, 1)]
             lone_pairs := [(0, [90])] }),
   ("CH₄", { type := "covalent"
             description := "Methane - tetrahedral arrangement"
             atoms := [{ element := "C", position := (0, 0) },
                       { element := "H", position := (0, 9/10) },
                       { element := "H", position := (-4/5, -11/20) },
                       { element := "H", position := (4/5, -11/20) },
                       { element := "H", position := (0, -9/10) }]
             bonds := [(0, 1, 1), (0, 2, 1), (0, 3, 1), (0, 4, 1)]
             lone_pairs := [] }),
   ("CO₂", { type := "covalent"
             description := "Carbon dioxide - linear with double bonds"
             atoms := [{ element := "C", position := (0, 0) },
                       { element := "O", position := (-9/10, 0) },
                       { element := "O", position := (9/10, 0) }]
             bonds := [(0, 1, 2), (0, 2, 2)]
             lone_pairs := [(1, [90, 270]), (2, [90, 270])] }),
   ("NaCl", { type := "ionic"
              description := "Sodium chloride - Na⁺ and Cl⁻ ions"
              atoms := [{ element := "Na", position := (-3/2, 0), charge := some "+",
                          show_electrons := some 0 },
                        { element := "Cl", position := (3/2, 0), charge := some "-",
                          show_electrons := some 8, transferred := some 1 }] }),
   ("MgO", { type := "ionic"
             description := "Magnesium oxide - Mg²⁺ and O²⁻ ions"
             atoms := [{ element := "Mg", position := (-3/2, 0), charge := some "2+",
                         show_electrons := some 0 },
                       { element := "O", position := (3/2, 0), charge := some "2-",
                         show_electrons := some 8, transferred := some 2 }] }),
   ("MgCl₂", { type := "ionic"
               description := "Magnesium chloride - Mg²⁺ and 2×Cl⁻"
               atoms := [{ element := "Mg", position := (0, 0), charge := some "2+",
                           show_electrons := some 0 },
                         { element := "Cl", position := (-9/5, 0), charge := some "-",
                           show_electrons := some 8, transferred := some 1 },
                         { element := "Cl", position := (9/5, 0), charge := some "-",
                           show_electrons := some 8, transferred := some 1 }] }),
   ("CaCl₂", { type := "ionic"
               description := "Calcium chloride - Ca²⁺ and 2×Cl⁻"
               atoms := [{ element := "Ca", position := (0, 0), charge := some "2+",
                           show_electrons := some 0 },
                         { element := "Cl", position := (-9/5, 0), charge := some "-",
                           show_electrons := some 8, transferred := some 1 },
                         { element := "Cl", position := (9/5, 0), charge := some "-",
                           show_electrons := some 8, transferred := some 1 }] }),
   ("Na₂O", { type := "ionic"
              description := "Sodium oxide - 2×Na⁺ and O²⁻"
              atoms := [{ element := "Na", position := (-9/5, 0), charge := some "+",
                          show_electrons := some 0 },
                        { element := "O", position := (0, 0), charge := some "2-",
                          show_electrons := some 8, transferred := some 2 },
                        { element := "Na", position := (9/5, 0), charge := some "+",
                          show_electrons := some 0 }] }),
   ("KBr", { type := "ionic"
             description := "Potassium bromide - K⁺ and Br⁻"
             atoms := [{ element := "K", position := (-3/2, 0), charge := some "+",
                         show_electrons := some 0 },
                       { element := "Br", position := (3/2, 0), charge := some "-",
                         show_electrons := some 8, transferred := some 1 }] }),
   ("LiF", { type := "ionic"
             description := "Lithium fluoride - Li⁺ and F⁻"
             atoms := [{ element := "Li", position := (-3/2, 0), charge := some "+",
                         show_electrons := some 0 },
                       { element := "F", position := (3/2, 0), charge := some "-",
                         show_electrons := some 8, transferred := some 1 }] })]

/-- `dotcross_utils.get_preset_molecule`:
`PRESET_MOLECULES.get(name, PRESET_MOLECULES['H₂O'])`. -/
def get_preset_molecule (name : String) : Molecule :=
  (PRESET_MOLECULES.lookup name).getD waterMolecule

end dotcross_utils

/-- Bridge into Mathlib's Euclidean plane, used to relate the embedded
coordinate formulas to Mathlib's angle API. -/
noncomputable def toE2 (p : Pt) : EuclideanSpace ℝ (Fin 2) :=
  (WithLp.equiv 2 (Fin 2 → ℝ)).symm ![p.x, p.y]

/-! ## Basic lemmas about the primitive kernel -/

@[ext]
theorem Pt.ext {p q : Pt} (hx : p.x = q.x) (hy : p.y = q.y) : p = q := by
  cases p
  cases q
  cases hx
  cases hy
  rfl

@[simp]
theorem Pt.add_x (p q : Pt) : (p + q).x = p.x + q.x := rfl

@[simp]
theorem Pt.add_y (p q : Pt) : (p + q).y = p.y + q.y := rfl

@[simp]
theorem Pt.sub_x (p q : Pt) : (p - q).x = p.x - q.x := rfl

@[simp]
theorem Pt.sub_y (p q : Pt) : (p - q).y = p.y - q.y := rfl

@[simp]
theorem Pt.neg_x (p : Pt) : (-p).x = -p.x := rfl

@[simp]
theorem Pt.neg_y (p : Pt) : (-p).y = -p.y := rfl

@[simp]
theorem Pt.smul_x (t : ℝ) (p : Pt) : (Pt.smul t p).x = t * p.x := rfl

@[simp]
theorem Pt.smul_y (t : ℝ) (p : Pt) : (Pt.smul t p).y = t * p.y := rfl

@[simp]
theorem Pt.sdiv_x (p : Pt) (t : ℝ) : (Pt.sdiv p t).x = p.x / t := rfl

@[simp]
theorem Pt.sdiv_y (p : Pt) (t : ℝ) : (Pt.sdiv p t).y = p.y / t := rfl

theorem norm2_def (p : Pt) : norm2 p = Real.sqrt (p.x ^ 2 + p.y ^ 2) := rfl

theorem norm2_nonneg (p : Pt) : 0 ≤ norm2 p := Real.sqrt_nonneg _

theorem norm2_pos (p : Pt) (h : p.x ≠ 0 ∨ p.y ≠ 0) : 0 < norm2 p := by
  apply Real.sqrt_pos.mpr
  rcases h with h | h
  · have : 0 < p.x ^ 2 := pow_two_pos_of_ne_zero h
    nlinarith [sq_nonneg p.y]
  · have : 0 < p.y ^ 2 := pow_two_pos_of_ne_zero h
    nlinarith [sq_nonneg p.x]

theorem norm2_sdiv (p : Pt) (t : ℝ) (ht : 0 ≤ t) :
    norm2 (Pt.sdiv p t) = norm2 p / t := by
  have h1 : (p.x / t) ^ 2 + (p.y / t) ^ 2 = (Real.sqrt (p.x ^ 2 + p.y ^ 2) / t) ^ 2 := by
    rw [div_pow, div_pow, div_pow, Real.sq_sqrt (by positivity)]
    ring
  have h2 : 0 ≤ Real.sqrt (p.x ^ 2 + p.y ^ 2) / t := by positivity
  simp only [norm2, Pt.sdiv_x, Pt.sdiv_y]
  rw [h1, Real.sqrt_sq h2]

theorem norm2_rotatePoint (θ : ℝ) (p : Pt) :
    norm2 (rotatePoint θ p) = norm2 p := by
  have h : (Real.cos θ * p.x - Real.sin θ * p.y) ^ 2 +
      (Real.sin θ * p.x + Real.cos θ * p.y) ^ 2 =
      (Real.sin θ ^ 2 + Real.cos θ ^ 2) * (p.x ^ 2 + p.y ^ 2) := by ring
  simp only [norm2, rotatePoint]
  rw [h, Real.sin_sq_add_cos_sq, one_mul]

theorem rotatePoint_sub (θ : ℝ) (p q : Pt) :
    rotatePoint θ (p - q) = rotatePoint θ p - rotatePoint θ q := by
  ext <;> simp [rotatePoint] <;> ring

theorem rotatePoint_zero (θ : ℝ) : rotatePoint θ ⟨0, 0⟩ = ⟨0, 0⟩ := by
  ext <;> simp [rotatePoint]

theorem clip_of_mem (t lo hi : ℝ) (h1 : lo ≤ t) (h2 : t ≤ hi) :
    clip t lo hi = t := by
  rw [clip, min_eq_right h2, max_eq_right h1]

theorem clip_le (t lo hi : ℝ) (h : lo ≤ hi) : clip t lo hi ≤ hi :=
  max_le h (min_le_left _ _)

theorem le_clip (t lo hi : ℝ) : lo ≤ clip t lo hi := le_max_left _ _

/-! ## Centroid lemmas for the quadrilateral presets -/

theorem get_centroid_add (v : Fin 4 → Pt) (c : Pt) :
    get_centroid (fun i => v i + c) = get_centroid v + c := by
  ext <;> simp [get_centroid, Fin.sum_univ_four] <;> ring

theorem get_centroid_sub_add (v : Fin 4 → Pt) (d c : Pt) :
    get_centroid (fun i => v i - d + c) = get_centroid v - d + c := by
  ext <;> simp [get_centroid, Fin.sum_univ_four] <;> ring

theorem get_centroid_rotate (v : Fin 4 → Pt) (θ : ℝ) (c : Pt) :
    get_centroid (quadrilateral_utils.rotate_points v θ c) =
      rotatePoint (radians θ) (get_centroid v - c) + c := by
  ext <;>
    simp [get_centroid, quadrilateral_utils.rotate_points, rotatePoint,
      Fin.sum_univ_four] <;>
  ring

theorem centroid_rotate_then_translate (v : Fin 4 → Pt)
    (hv : get_centroid v = ⟨0, 0⟩) (r : ℝ) (c : Pt) :
    get_centroid (fun i =>
      (if r ≠ 0 then quadrilateral_utils.rotate_points v r ⟨0, 0⟩ else v) i + c) = c := by
  rw [get_centroid_add]
  by_cases hr : r ≠ 0
  · rw [if_pos hr, get_centroid_rotate, hv]
    ext <;> simp [rotatePoint]
  · rw [if_neg hr, hv]
    ext <;> simp

theorem centroid_center_then_rotate (v : Fin 4 → Pt) (r : ℝ) (c : Pt) :
    get_centroid (if r ≠ 0 then
        quadrilateral_utils.rotate_points (fun i => v i - get_centroid v + c) r c
      else fun i => v i - get_centroid v + c) = c := by
  by_cases hr : r ≠ 0
  · rw [if_pos hr, get_centroid_rotate, get_centroid_sub_add]
    have h0 : get_centroid v - get_centroid v + c - c = (⟨0, 0⟩ : Pt) := by
      ext <;> simp
    rw [h0, rotatePoint_zero]
    ext <;> simp
  · rw [if_neg hr, get_centroid_sub_add]
    ext <;> simp

theorem centroid_translate_then_rotate (v : Fin 4 → Pt)
    (hv : get_centroid v = ⟨0, 0⟩) (r : ℝ) (c : Pt) :
    get_centroid (if r ≠ 0 then
        quadrilateral_utils.rotate_points (fun i => v i + c) r c
      else fun i => v i + c) = c := by
  by_cases hr : r ≠ 0
  · rw [if_pos hr, get_centroid_rotate, get_centroid_add, hv]
    have h0 : (⟨0, 0⟩ : Pt) + c - c = (⟨0, 0⟩ : Pt) := by ext <;> simp
    rw [h0, rotatePoint_zero]
    ext <;> simp
  · rw [if_neg hr, get_centroid_add, hv]
    ext <;> simp

theorem get_kite_no_rotation (d1 d2 s : ℝ) :
    quadrilateral_utils.get_kite d1 d2 s ⟨0, 0⟩ 0 =
      ![⟨-(d1 / 2), 0⟩, ⟨0, -(d2 * s)⟩, ⟨d1 / 2, 0⟩, ⟨0, d2 * (1 - s)⟩] := by
  funext i
  simp only [quadrilateral_utils.get_kite, ne_eq, not_true_eq_false, if_false]
  fin_cases i <;> (ext <;> simp)

/-! ## C8 and C3: kite vertices and preset centroids -/

/-- C8: for all diagonal lengths `d1, d2 > 0` and split ratio in `[0,1]`,
`get_kite` with default center `(0,0)` and no rotation returns exactly the
four vertices `(−d1/2, 0), (0, −split·d2), (d1/2, 0), (0, (1−split)·d2)`
in that order. -/
theorem get_kite_vertices_exact (d1 d2 split_ratio : ℝ) (hd1 : 0 < d1)
    (hd2 : 0 < d2) (hs0 : 0 ≤ split_ratio) (hs1 : split_ratio ≤ 1) :
    quadrilateral_utils.get_kite d1 d2 split_ratio ⟨0, 0⟩ 0 =
      ![⟨-(d1 / 2), 0⟩, ⟨0, -(split_ratio * d2)⟩, ⟨d1 / 2, 0⟩,
        ⟨0, (1 - split_ratio) * d2⟩] := by
  rw [get_kite_no_rotation]
  funext i
  fin_cases i <;> (ext <;> simp <;> ring)

/-- Witness for C8 at the spec's concrete scenario `d1=4, d2=6, split=0.5`:
the vertices are exactly `(-2,0), (0,-3), (2,0), (0,3)`. -/
theorem get_kite_vertices_exact_witness :
    ((0 : ℝ) < 4 ∧ (0 : ℝ) < 6 ∧ (0 : ℝ) ≤ 1 / 2 ∧ (1 / 2 : ℝ) ≤ 1) ∧
    quadrilateral_utils.get_kite 4 6 (1 / 2) ⟨0, 0⟩ 0 =
      ![⟨-2, 0⟩, ⟨0, -3⟩, ⟨2, 0⟩, ⟨0, 3⟩] := by
  refine ⟨⟨by norm_num, by norm_num, by norm_num, by norm_num⟩, ?_⟩
  rw [get_kite_vertices_exact 4 6 (1 / 2) (by norm_num) (by norm_num)
    (by norm_num) (by norm_num)]
  funext i
  fin_cases i <;> (ext <;> norm_num)

/-- C3 counterexample: `get_kite` with `split_ratio = 0.3` at the default
center `(0,0)` has centroid `(0, 0.6) ≠ (0,0)`: the kite preset does not
center its result on the centroid. -/
theorem get_kite_centroid_ne_center :
    get_centroid (quadrilateral_utils.get_kite 4 6 (3 / 10) ⟨0, 0⟩ 0) ≠ ⟨0, 0⟩ := by
  intro h
  have hy := congrArg Pt.y h
  rw [get_kite_no_rotation] at hy
  simp [get_centroid, Fin.sum_univ_four] at hy
  norm_num at hy

/-- C3 (amended): every quadrilateral preset except the kite returns vertices
whose centroid is the requested center, for all parameters and rotations; the
kite instead places the diagonal crossing at the center, and its centroid
coincides with the center for `split_ratio = 1/2` (not for every split ratio
in `(0,1)`). -/
theorem quad_presets_centroid_eq_center :
    (∀ (s : ℝ) (c : Pt) (r : ℝ),
      get_centroid (quadrilateral_utils.get_square s c r) = c) ∧
    (∀ (w h : ℝ) (c : Pt) (r : ℝ),
      get_centroid (quadrilateral_utils.get_rectangle w h c r) = c) ∧
    (∀ (b s a : ℝ) (c : Pt) (r : ℝ),
      get_centroid (quadrilateral_utils.get_parallelogram b s a c r) = c) ∧
    (∀ (s a : ℝ) (c : Pt) (r : ℝ),
      get_centroid (quadrilateral_utils.get_rhombus s a c r) = c) ∧
    (∀ (pt pb h o : ℝ) (c : Pt) (r : ℝ),
      get_centroid (quadrilateral_utils.get_trapezium pt pb h o c r) = c) ∧
    (∀ (pt pb h : ℝ) (c : Pt) (r : ℝ),
      get_centroid (quadrilateral_utils.get_isosceles_trapezium pt pb h c r) = c) ∧
    (∀ (d1 d2 : ℝ) (c : Pt) (r : ℝ),
      get_centroid (quadrilateral_utils.get_kite d1 d2 (1 / 2) c r) = c) := by
  refine ⟨?_, ?_, ?_, ?_, ?_, ?_, ?_⟩
  · intro s c r
    simp only [quadrilateral_utils.get_square]
    exact centroid_rotate_then_translate _ (by ext <;> simp [get_centroid, Fin.sum_univ_four] <;> ring) r c
  · intro w h c r
    simp only [quadrilateral_utils.get_rectangle]
    exact centroid_rotate_then_translate _ (by ext <;> simp [get_centroid, Fin.sum_univ_four] <;> ring) r c
  · intro b s a c r
    simp only [quadrilateral_utils.get_parallelogram]
    exact centroid_center_then_rotate _ r c
  · intro s a c r
    simp only [quadrilateral_utils.get_rhombus, quadrilateral_utils.get_parallelogram]
    exact centroid_center_then_rotate _ r c
  · intro pt pb h o c r
    simp only [quadrilateral_utils.get_trapezium]
    exact centroid_center_then_rotate _ r c
  · intro pt pb h c r
    simp only [quadrilateral_utils.get_isosceles_trapezium, quadrilateral_utils.get_trapezium]
    exact centroid_center_then_rotate _ r c
  · intro d1 d2 c r
    simp only [quadrilateral_utils.get_kite]
    exact centroid_translate_then_rotate _ (by ext <;> simp [get_centroid, Fin.sum_univ_four] <;> ring) r c

/-! ## C2: sector areas -/

/-- C2 counterexample: `get_sector_area(1, 0°, 90°) + get_sector_area(1, 90°, 0°)`
is `π/2`, not the full circle area `π·1²` — swapping the two angle arguments
does not produce the complementary long-way sector. -/
theorem sector_area_sum_ne_circle :
    circle_utils.get_sector_area 1 0 90 + circle_utils.get_sector_area 1 90 0 ≠
      Real.pi * 1 ^ 2 := by
  have h1 : circle_utils.get_sector_area 1 0 90 = 0.5 * radians 90 := by
    simp only [circle_utils.get_sector_area]
    norm_num
  have h2 : circle_utils.get_sector_area 1 90 0 = 0.5 * radians 90 := by
    simp only [circle_utils.get_sector_area]
    norm_num
  rw [h1, h2, radians]
  intro h
  nlinarith [Real.pi_pos]

/-- C2 (amended): `get_sector_area` is symmetric in its two angle arguments
(both calls reduce the sweep to the smaller of `|θ2−θ1|` and `360−|θ2−θ1|`),
so the sum of the two calls is twice the shorter-sweep sector area; for
`r > 0` it equals the full circle area `πr²` exactly when the folded sweep
is 180°. -/
theorem sector_area_swap_sum (r θ1 θ2 : ℝ) (hr : 0 < r) :
    circle_utils.get_sector_area r θ1 θ2 = circle_utils.get_sector_area r θ2 θ1 ∧
    (circle_utils.get_sector_area r θ1 θ2 + circle_utils.get_sector_area r θ2 θ1 =
        Real.pi * r ^ 2 ↔
      (if |θ2 - θ1| > 180 then 360 - |θ2 - θ1| else |θ2 - θ1|) = 180) := by
  have hsymm : circle_utils.get_sector_area r θ1 θ2 =
      circle_utils.get_sector_area r θ2 θ1 := by
    simp only [circle_utils.get_sector_area]
    rw [abs_sub_comm]
  refine ⟨hsymm, ?_⟩
  rw [← hsymm]
  set D : ℝ := if |θ2 - θ1| > 180 then 360 - |θ2 - θ1| else |θ2 - θ1| with hD
  have hval : circle_utils.get_sector_area r θ1 θ2 = 0.5 * r ^ 2 * radians D := by
    simp only [circle_utils.get_sector_area, hD]
  rw [hval, radians]
  have hne : Real.pi * r ^ 2 ≠ 0 :=
    mul_ne_zero (ne_of_gt Real.pi_pos) (pow_ne_zero _ (ne_of_gt hr))
  constructor
  · intro h
    have h' : Real.pi * r ^ 2 * (D / 180) = Real.pi * r ^ 2 * 1 := by
      rw [mul_one]
      nlinarith [h]
    have := mul_left_cancel₀ hne h'
    linarith [this]
  · intro h
    rw [h]
    ring

/-- Witness for C2 (amended) at `r = 2, θ1 = 0, θ2 = 180`: the folded sweep
is 180° and the two calls sum to the full circle area `π·2²`. -/
theorem sector_area_swap_sum_witness :
    (0 : ℝ) < 2 ∧
    circle_utils.get_sector_area 2 0 180 + circle_utils.get_sector_area 2 180 0 =
      Real.pi * 2 ^ 2 := by
  refine ⟨by norm_num, ?_⟩
  exact (sector_area_swap_sum 2 0 180 (by norm_num)).2.mpr (by norm_num)

/-! ## C4: degenerate-direction fallbacks in label placement -/

/-- C4 counterexample: the quadrilateral vertex-label placer, given a vertex
coinciding with the centroid (direction vector of magnitude 0 < 1e-10),
places the label at the anchor itself (direction effectively `(0,0)`), not at
`anchor + distance·(0,1)`. -/
theorem quad_vertex_label_degenerate_not_up :
    quadrilateral_utils.draw_vertex_label_pos ⟨0, 0⟩
        quadrilateral_utils.QuadLabelDirection.auto 1 (some ⟨0, 0⟩) = ⟨0, 0⟩ ∧
    quadrilateral_utils.draw_vertex_label_pos ⟨0, 0⟩
        quadrilateral_utils.QuadLabelDirection.auto 1 (some ⟨0, 0⟩) ≠
      (⟨0, 0⟩ : Pt) + Pt.smul 1 ⟨0, 1⟩ := by
  have hpos : quadrilateral_utils.draw_vertex_label_pos ⟨0, 0⟩
      quadrilateral_utils.QuadLabelDirection.auto 1 (some ⟨0, 0⟩) = ⟨0, 0⟩ := by
    simp only [quadrilateral_utils.draw_vertex_label_pos]
    ext <;> simp
  refine ⟨hpos, ?_⟩
  rw [hpos]
  intro h
  have hy := congrArg Pt.y h
  simp at hy

/-- C4 (amended): the circle label placer `draw_label` does use the unit
fallback `(0,1)` whenever the direction vector to normalize has magnitude
`≤ 1e-10`, so its label position is `anchor + distance·(0,1)`; the
quadrilateral vertex-label placer instead divides by `‖v−centroid‖ + 1e-10`
(never a division by zero, so no NaN), which for a vertex coinciding with
the centroid yields the zero direction and places the label at the anchor. -/
theorem label_degenerate_fallbacks :
    (∀ (position ref : Pt) (distance : ℝ),
      norm2 (position - ref) ≤ 1e-10 →
      circle_utils.draw_label_pos position circle_utils.CircleLabelDirection.auto
          distance (some ref) = position + Pt.smul distance ⟨0, 1⟩) ∧
    (∀ (vertex : Pt) (distance : ℝ),
      quadrilateral_utils.draw_vertex_label_pos vertex
          quadrilateral_utils.QuadLabelDirection.auto distance (some vertex) =
        vertex) := by
  constructor
  · intro position ref distance h
    simp only [circle_utils.draw_label_pos]
    rw [if_neg (not_lt.mpr h)]
  · intro vertex distance
    simp only [quadrilateral_utils.draw_vertex_label_pos]
    ext <;> simp

/-- Witness for C4 (amended): the circle label placer at a degenerate anchor
(`position = ref = (0,0)`, distance 2) places the label at `(0,2)`. -/
theorem label_degenerate_fallbacks_witness :
    norm2 ((⟨0, 0⟩ : Pt) - ⟨0, 0⟩) ≤ 1e-10 ∧
    circle_utils.draw_label_pos ⟨0, 0⟩ circle_utils.CircleLabelDirection.auto
        2 (some ⟨0, 0⟩) = (⟨0, 0⟩ : Pt) + Pt.smul 2 ⟨0, 1⟩ := by
  have h : norm2 ((⟨0, 0⟩ : Pt) - ⟨0, 0⟩) ≤ 1e-10 := by
    simp [norm2_def]
    norm_num
  exact ⟨h, label_degenerate_fallbacks.1 ⟨0, 0⟩ ⟨0, 0⟩ 2 h⟩

/-! ## C9 and C10: dot-and-cross lone pairs and presets -/

/-- C9: for an atom with exactly one bonded direction at angle θ, the
lone-pair solver fans the pairs symmetrically around the opposite angle
θ+180: one pair at θ+180, two pairs at θ+180±30, three pairs at
θ+180−45, θ+180, θ+180+45; in particular a single bond at 0° needing two
lone pairs yields {150°, 210°}. -/
theorem lone_pair_angles_single_bond (θ : ℚ) :
    dotcross_utils.lone_pair_angles [θ] 1 = [θ + 180] ∧
    dotcross_utils.lone_pair_angles [θ] 2 = [θ + 180 - 30, θ + 180 + 30] ∧
    dotcross_utils.lone_pair_angles [θ] 3 =
      [θ + 180 - 45, θ + 180, θ + 180 + 45] ∧
    dotcross_utils.lone_pair_angles [0] 2 = [150, 210] := by
  refine ⟨?_, ?_, ?_, ?_⟩ <;>
    simp [dotcross_utils.lone_pair_angles, List.insertionSort] <;>
    norm_num

/-- C10: `get_preset_molecule` never fails — any name that is not a key of
the preset table silently yields the H₂O (water) preset. -/
theorem get_preset_molecule_default (name : String)
    (h : dotcross_utils.PRESET_MOLECULES.lookup name = none) :
    dotcross_utils.get_preset_molecule name = dotcross_utils.waterMolecule := by
  simp [dotcross_utils.get_preset_molecule, h]

/-- Witness for C10: `"CO"` is not a preset key, and `get_preset_molecule`
returns the water preset for it. -/
theorem get_preset_molecule_default_witness :
    dotcross_utils.PRESET_MOLECULES.lookup "CO" = none ∧
    dotcross_utils.get_preset_molecule "CO" = dotcross_utils.waterMolecule := by
  have h : dotcross_utils.PRESET_MOLECULES.lookup "CO" = none := by rfl
  exact ⟨h, get_preset_molecule_default "CO" h⟩

/-! ## C1 and C5: SSS triangle construction -/

theorem norm2_mk (u v : ℝ) : norm2 ⟨u, v⟩ = Real.sqrt (u ^ 2 + v ^ 2) := rfl

theorem get_side_length_rigid (base : Fin 3 → Pt) (θ : ℝ) (ctr : Pt) (i : Fin 3) :
    triangle_utils.get_side_length
      (fun j => (if θ ≠ 0 then rotatePoint (radians θ) (base j) else base j) + ctr) i =
    triangle_utils.get_side_length base i := by
  simp only [triangle_utils.get_side_length]
  by_cases hθ : θ ≠ 0
  · simp only [if_pos hθ]
    have hd : (rotatePoint (radians θ) (base (i + 1)) + ctr) -
        (rotatePoint (radians θ) (base i) + ctr) =
        rotatePoint (radians θ) (base (i + 1) - base i) := by
      rw [rotatePoint_sub]
      ext <;> simp
    rw [hd, norm2_rotatePoint]
  · simp only [if_neg hθ]
    have hd : (base (i + 1) + ctr) - (base i + ctr) = base (i + 1) - base i := by
      ext <;> simp
    rw [hd]

/-- Core construction lemma shared by the C1 and C5 theorems: under the strict
triangle inequality the SSS builder succeeds and the three sides of the result
have lengths `(c, a, b)` exactly. -/
theorem sss_builds (a b c : ℝ) (ctr : Pt) (θ : ℝ)
    (h : a + b > c ∧ b + c > a ∧ a + c > b) :
    ∃ t : Fin 3 → Pt,
      triangle_utils.get_triangle_vertices_from_sss a b c ctr θ = some t ∧
      triangle_utils.get_side_length t 0 = c ∧
      triangle_utils.get_side_length t 1 = a ∧
      triangle_utils.get_side_length t 2 = b := by
  obtain ⟨h1, h2, h3⟩ := h
  have ha : 0 < a := by linarith
  have hb : 0 < b := by linarith
  have hc : 0 < c := by linarith
  have hbc : (0 : ℝ) < 2 * b * c := by positivity
  set cosA : ℝ := (b ^ 2 + c ^ 2 - a ^ 2) / (2 * b * c) with hcosA_def
  have hub : cosA < 1 := by
    rw [hcosA_def, div_lt_one hbc]
    nlinarith
  have hlb : -1 < cosA := by
    rw [hcosA_def, lt_div_iff hbc]
    nlinarith
  have hclip : clip cosA (-1) 1 = cosA := clip_of_mem _ _ _ hlb.le hub.le
  set α : ℝ := Real.arccos cosA with hα_def
  have hcosα : Real.cos α = cosA := Real.cos_arccos hlb.le hub.le
  have hsinα_sq : Real.sin α ^ 2 = 1 - cosA ^ 2 := by
    rw [hα_def, Real.sin_arccos, Real.sq_sqrt (by nlinarith)]
  set A0 : Pt := ⟨-(c / 2), 0⟩ with hA0
  set B0 : Pt := ⟨c / 2, 0⟩ with hB0
  set C0 : Pt := A0 + Pt.smul b ⟨Real.cos α, Real.sin α⟩ with hC0
  have hP : a + b > c ∧ b + c > a ∧ a + c > b := ⟨h1, h2, h3⟩
  refine ⟨fun j =>
    (if θ ≠ 0 then rotatePoint (radians θ) ((![A0, B0, C0]) j)
     else (![A0, B0, C0]) j) + ctr, ?_, ?_, ?_, ?_⟩
  · simp only [triangle_utils.get_triangle_vertices_from_sss,
      if_neg (not_not_intro hP), ← hcosA_def, hclip, ← hα_def]
    congr 1
    funext j
    fin_cases j <;> rfl
  · rw [get_side_length_rigid (![A0, B0, C0]) θ ctr 0]
    show norm2 (B0 - A0) = c
    have hBA : B0 - A0 = ⟨c, 0⟩ := by
      rw [hB0, hA0]
      ext <;> simp <;> ring
    rw [hBA, norm2_mk, show c ^ 2 + (0 : ℝ) ^ 2 = c ^ 2 by ring]
    exact Real.sqrt_sq hc.le
  · rw [get_side_length_rigid (![A0, B0, C0]) θ ctr 1]
    show norm2 (C0 - B0) = a
    have hCB : C0 - B0 = ⟨b * cosA - c, b * Real.sin α⟩ := by
      rw [hC0, hB0, hA0]
      ext <;> simp [hcosα] <;> ring
    have hc2 : cosA * (2 * b * c) = b ^ 2 + c ^ 2 - a ^ 2 := by
      rw [hcosA_def]
      field_simp
    rw [hCB, norm2_mk,
      show (b * cosA - c) ^ 2 + (b * Real.sin α) ^ 2 = a ^ 2 by
        linear_combination b ^ 2 * hsinα_sq - hc2]
    exact Real.sqrt_sq ha.le
  · rw [get_side_length_rigid (![A0, B0, C0]) θ ctr 2]
    show norm2 (A0 - C0) = b
    have hAC : A0 - C0 = ⟨-(b * Real.cos α), -(b * Real.sin α)⟩ := by
      rw [hC0, hA0]
      ext <;> simp <;> ring
    rw [hAC, norm2_mk,
      show (-(b * Real.cos α)) ^ 2 + (-(b * Real.sin α)) ^ 2 = b ^ 2 by
        linear_combination b ^ 2 * Real.sin_sq_add_cos_sq α]
    exact Real.sqrt_sq hb.le

/-- C1: the SSS constructor fails (raises `InvalidGeometry`, modelled as
`none`) exactly when the strict triangle inequality fails; when it holds the
construction succeeds and returns vertices `[A, B, C]` whose base A–B has
length exactly `c` — the input is never silently corrected. -/
theorem sss_error_iff_triangle_inequality (a b c : ℝ) (ctr : Pt) (θ : ℝ) :
    (triangle_utils.get_triangle_vertices_from_sss a b c ctr θ = none ↔
      ¬(a + b > c ∧ b + c > a ∧ a + c > b)) ∧
    ((a + b > c ∧ b + c > a ∧ a + c > b) →
      ∃ t : Fin 3 → Pt,
        triangle_utils.get_triangle_vertices_from_sss a b c ctr θ = some t ∧
        triangle_utils.get_side_length t 0 = c) := by
  by_cases hP : a + b > c ∧ b + c > a ∧ a + c > b
  · obtain ⟨t, ht, h0, _, _⟩ := sss_builds a b c ctr θ hP
    constructor
    · rw [ht]
      simp only [iff_false_intro (not_not_intro hP)]
      simp
    · intro _
      exact ⟨t, ht, h0⟩
  · constructor
    · have : triangle_utils.get_triangle_vertices_from_sss a b c ctr θ = none := by
        simp only [triangle_utils.get_triangle_vertices_from_sss, if_pos hP]
      rw [this]
      simp [hP]
    · intro hPP
      exact absurd hPP hP

/-- Witness for C1 at `(a,b,c) = (3,4,5)`: the inequality holds, construction
succeeds and the base has length 5. -/
theorem sss_error_iff_triangle_inequality_witness :
    ((3 : ℝ) + 4 > 5 ∧ (4 : ℝ) + 5 > 3 ∧ (3 : ℝ) + 5 > 4) ∧
    ∃ t : Fin 3 → Pt,
      triangle_utils.get_triangle_vertices_from_sss 3 4 5 ⟨0, 0⟩ 0 = some t ∧
      triangle_utils.get_side_length t 0 = 5 := by
  refine ⟨⟨by norm_num, by norm_num, by norm_num⟩, ?_⟩
  exact (sss_error_iff_triangle_inequality 3 4 5 ⟨0, 0⟩ 0).2
    ⟨by norm_num, by norm_num, by norm_num⟩

/-- C5: for every side triple satisfying the strict triangle inequality, the
three sides of the constructed triangle have lengths `(c, a, b)` exactly
(hence in particular within the spec's 1e-6 tolerance). -/
theorem sss_side_lengths_roundtrip (a b c : ℝ) (ctr : Pt) (θ : ℝ)
    (h : a + b > c ∧ b + c > a ∧ a + c > b) :
    ∃ t : Fin 3 → Pt,
      triangle_utils.get_triangle_vertices_from_sss a b c ctr θ = some t ∧
      triangle_utils.get_side_length t 0 = c ∧
      triangle_utils.get_side_length t 1 = a ∧
      triangle_utils.get_side_length t 2 = b ∧
      |triangle_utils.get_side_length t 0 - c| ≤ 1e-6 ∧
      |triangle_utils.get_side_length t 1 - a| ≤ 1e-6 ∧
      |triangle_utils.get_side_length t 2 - b| ≤ 1e-6 := by
  obtain ⟨t, ht, h0, h1, h2⟩ := sss_builds a b c ctr θ h
  refine ⟨t, ht, h0, h1, h2, ?_, ?_, ?_⟩ <;>
    simp only [h0, h1, h2, sub_self, abs_zero] <;>
    norm_num

/-- Witness for C5 at `(a,b,c) = (3,4,5)`. -/
theorem sss_side_lengths_roundtrip_witness :
    ((3 : ℝ) + 4 > 5 ∧ (4 : ℝ) + 5 > 3 ∧ (3 : ℝ) + 5 > 4) ∧
    ∃ t : Fin 3 → Pt,
      triangle_utils.get_triangle_vertices_from_sss 3 4 5 ⟨0, 0⟩ 0 = some t ∧
      triangle_utils.get_side_length t 0 = 5 ∧
      triangle_utils.get_side_length t 1 = 3 ∧
      triangle_utils.get_side_length t 2 = 4 := by
  refine ⟨⟨by norm_num, by norm_num, by norm_num⟩, ?_⟩
  obtain ⟨t, ht, h0, h1, h2, _⟩ := sss_side_lengths_roundtrip 3 4 5 ⟨0, 0⟩ 0
    ⟨by norm_num, by norm_num, by norm_num⟩
  exact ⟨t, ht, h0, h1, h2⟩

/-! ## C7: the outward normal -/

theorem norm2_neg (p : Pt) : norm2 (-p) = norm2 p := by
  simp [norm2_def, neg_sq]

theorem dot_sdiv_left (p w : Pt) (t : ℝ) : dot (Pt.sdiv p t) w = dot p w / t := by
  simp [dot]
  ring

theorem dot_neg_left (p w : Pt) : dot (-p) w = -dot p w := by
  simp [dot]
  ring

/-- The outward-normal invariant for an explicit vertex triple, stated on
side 0 of the triple `![p, q, k]`. -/
theorem outward_aux (p q k : Pt) (hS : cross (q - p) (k - p) ≠ 0) :
    norm2 (triangle_utils.get_outward_direction ![p, q, k] 0) = 1 ∧
    dot (triangle_utils.get_outward_direction ![p, q, k] 0)
      (get_centroid ![p, q, k] - triangle_utils.get_side_midpoint ![p, q, k] 0) ≤ 0 := by
  have hmid : triangle_utils.get_side_midpoint ![p, q, k] 0 = Pt.sdiv (p + q) 2 := rfl
  set pv : Pt := ⟨-(q - p).y, (q - p).x⟩ with hpv
  set n : ℝ := norm2 pv with hn_def
  have hout : triangle_utils.get_outward_direction ![p, q, k] 0 =
      if dot (Pt.sdiv pv n) (k - Pt.sdiv (p + q) 2) > 0
      then -(Pt.sdiv pv n) else Pt.sdiv pv n := rfl
  have hx_or : (q - p).x ≠ 0 ∨ (q - p).y ≠ 0 := by
    by_contra hcon
    push_neg at hcon
    apply hS
    simp [cross, hcon.1, hcon.2]
  have hn : 0 < n := by
    rw [hn_def]
    apply norm2_pos
    rw [hpv]
    rcases hx_or with h | h
    · right
      show (q - p).x ≠ 0
      exact h
    · left
      show -(q - p).y ≠ 0
      exact neg_ne_zero.mpr h
  have hnorm_P : norm2 (Pt.sdiv pv n) = 1 := by
    rw [norm2_sdiv pv n hn.le, ← hn_def, div_self (ne_of_gt hn)]
  have hkey2 : dot pv (k - Pt.sdiv (p + q) 2) = cross (q - p) (k - p) := by
    rw [hpv]
    simp [dot, cross]
    ring
  have hkey : dot pv (get_centroid ![p, q, k] - Pt.sdiv (p + q) 2) =
      cross (q - p) (k - p) / 3 := by
    rw [hpv]
    simp [dot, cross, get_centroid, Fin.sum_univ_three]
    ring
  rw [hout, hmid]
  by_cases hpos : dot (Pt.sdiv pv n) (k - Pt.sdiv (p + q) 2) > 0
  · rw [if_pos hpos]
    refine ⟨by rw [norm2_neg]; exact hnorm_P, ?_⟩
    rw [dot_neg_left, dot_sdiv_left, hkey]
    have hSpos : 0 < cross (q - p) (k - p) := by
      rw [dot_sdiv_left, hkey2] at hpos
      rcases div_pos_iff.mp hpos with ⟨hs, _⟩ | ⟨_, hn'⟩
      · exact hs
      · linarith
    have : 0 ≤ cross (q - p) (k - p) / 3 / n := by positivity
    linarith
  · rw [if_neg hpos]
    refine ⟨hnorm_P, ?_⟩
    rw [dot_sdiv_left, hkey]
    rw [not_lt, dot_sdiv_left, hkey2] at hpos
    have hS_le : cross (q - p) (k - p) ≤ 0 := by
      have hmul : cross (q - p) (k - p) / n * n ≤ 0 :=
        mul_nonpos_of_nonpos_of_nonneg hpos hn.le
      rw [div_mul_cancel₀ _ (ne_of_gt hn)] at hmul
      exact hmul
    exact div_nonpos_iff.mpr (Or.inr ⟨by linarith, hn.le⟩)

/-- C7: for every side of every non-degenerate triangle (any winding), the
outward direction returned by `get_outward_direction` is a unit vector whose
dot product with the vector from the side midpoint to the triangle centroid
is `≤ 0`. -/
theorem outward_direction_unit_and_points_away (v : Fin 3 → Pt) (i : Fin 3)
    (h : cross (v 1 - v 0) (v 2 - v 0) ≠ 0) :
    norm2 (triangle_utils.get_outward_direction v i) = 1 ∧
    dot (triangle_utils.get_outward_direction v i)
      (get_centroid v - triangle_utils.get_side_midpoint v i) ≤ 0 := by
  have e1 : triangle_utils.get_outward_direction v i =
      triangle_utils.get_outward_direction ![v i, v (i + 1), v (i + 2)] 0 := rfl
  have e2 : triangle_utils.get_side_midpoint v i =
      triangle_utils.get_side_midpoint ![v i, v (i + 1), v (i + 2)] 0 := rfl
  have e3 : get_centroid ![v i, v (i + 1), v (i + 2)] = get_centroid v := by
    fin_cases i <;> (ext <;> simp [get_centroid, Fin.sum_univ_three] <;> ring)
  have e4 : cross (v (i + 1) - v i) (v (i + 2) - v i) =
      cross (v 1 - v 0) (v 2 - v 0) := by
    fin_cases i <;> simp [cross] <;> ring
  have haux := outward_aux (v i) (v (i + 1)) (v (i + 2)) (by rw [e4]; exact h)
  refine ⟨by rw [e1]; exact haux.1, ?_⟩
  rw [e1, e2, ← e3]
  exact haux.2

/-- Witness for C7 at the right triangle `(0,0), (1,0), (0,1)`, side 0. -/
theorem outward_direction_unit_and_points_away_witness :
    cross ((![⟨0, 0⟩, ⟨1, 0⟩, ⟨0, 1⟩] : Fin 3 → Pt) 1 - (![⟨0, 0⟩, ⟨1, 0⟩, ⟨0, 1⟩] : Fin 3 → Pt) 0)
        ((![⟨0, 0⟩, ⟨1, 0⟩, ⟨0, 1⟩] : Fin 3 → Pt) 2 - (![⟨0, 0⟩, ⟨1, 0⟩, ⟨0, 1⟩] : Fin 3 → Pt) 0) ≠ 0 ∧
    norm2 (triangle_utils.get_outward_direction ![⟨0, 0⟩, ⟨1, 0⟩, ⟨0, 1⟩] 0) = 1 ∧
    dot (triangle_utils.get_outward_direction ![⟨0, 0⟩, ⟨1, 0⟩, ⟨0, 1⟩] 0)
      (get_centroid ![⟨0, 0⟩, ⟨1, 0⟩, ⟨0, 1⟩] -
        triangle_utils.get_side_midpoint ![⟨0, 0⟩, ⟨1, 0⟩, ⟨0, 1⟩] 0) ≤ 0 := by
  have hne : cross ((![⟨0, 0⟩, ⟨1, 0⟩, ⟨0, 1⟩] : Fin 3 → Pt) 1 - (![⟨0, 0⟩, ⟨1, 0⟩, ⟨0, 1⟩] : Fin 3 → Pt) 0)
      ((![⟨0, 0⟩, ⟨1, 0⟩, ⟨0, 1⟩] : Fin 3 → Pt) 2 - (![⟨0, 0⟩, ⟨1, 0⟩, ⟨0, 1⟩] : Fin 3 → Pt) 0) ≠ 0 := by
    simp [cross]
  exact ⟨hne, outward_direction_unit_and_points_away ![⟨0, 0⟩, ⟨1, 0⟩, ⟨0, 1⟩] 0 hne⟩

/-! ## C6: the interior angles of a triangle sum to 180° -/

theorem arccos_clip (t : ℝ) : Real.arccos (clip t (-1) 1) = Real.arccos t := by
  rcases le_total t (-1) with h | h
  · have hcl : clip t (-1) 1 = -1 := by
      rw [clip, min_eq_right (by linarith : t ≤ 1), max_eq_left h]
    rw [hcl, Real.arccos_neg_one, Real.arccos_eq_pi_div_two_sub_arcsin,
      Real.arcsin_of_le_neg_one h]
    ring
  · rcases le_total 1 t with h2 | h2
    · have hcl : clip t (-1) 1 = 1 := by
        rw [clip, min_eq_left h2, max_eq_right (by norm_num : (-1 : ℝ) ≤ 1)]
      rw [hcl, Real.arccos_one, Real.arccos_eq_pi_div_two_sub_arcsin,
        Real.arcsin_of_one_le h2]
      ring
    · rw [clip_of_mem t _ _ h h2]

theorem toE2_apply_zero (p : Pt) : toE2 p 0 = p.x := rfl

theorem toE2_apply_one (p : Pt) : toE2 p 1 = p.y := rfl

theorem toE2_sub (u w : Pt) : toE2 (u - w) = toE2 u - toE2 w := by
  funext i
  fin_cases i <;> simp [toE2]

theorem toE2_injective {u w : Pt} (h : toE2 u = toE2 w) : u = w := by
  have hx : toE2 u 0 = toE2 w 0 := congrArg (fun g => g 0) h
  have hy : toE2 u 1 = toE2 w 1 := congrArg (fun g => g 1) h
  exact Pt.ext hx hy

theorem toE2_inner (u w : Pt) : (inner (toE2 u) (toE2 w) : ℝ) = dot u w := by
  rw [@PiLp.inner_apply]
  simp [toE2, RCLike.inner_apply, Fin.sum_univ_two, dot]

theorem toE2_norm (u : Pt) : ‖toE2 u‖ = norm2 u := by
  rw [EuclideanSpace.norm_eq, norm2_def]
  simp [toE2, Fin.sum_univ_two, sq_abs]

theorem get_vertex_angle_eq_angle (v : Fin 3 → Pt) (i : Fin 3) :
    triangle_utils.get_vertex_angle v i =
      degrees (EuclideanGeometry.angle (toE2 (v (i - 1))) (toE2 (v i))
        (toE2 (v (i + 1)))) := by
  have hang : EuclideanGeometry.angle (toE2 (v (i - 1))) (toE2 (v i))
      (toE2 (v (i + 1))) =
      Real.arccos ((inner (toE2 (v (i - 1)) - toE2 (v i))
          (toE2 (v (i + 1)) - toE2 (v i)) : ℝ) /
        (‖toE2 (v (i - 1)) - toE2 (v i)‖ * ‖toE2 (v (i + 1)) - toE2 (v i)‖)) := rfl
  rw [hang, ← toE2_sub, ← toE2_sub, toE2_inner, toE2_norm, toE2_norm]
  simp only [triangle_utils.get_vertex_angle]
  rw [arccos_clip]

/-- C6: for every non-degenerate triangle (non-collinear vertices), the three
interior angles computed by `get_vertex_angle` sum to exactly 180° (hence in
particular within the spec's 1e-4 tolerance). -/
theorem vertex_angles_sum_180 (v : Fin 3 → Pt)
    (h : cross (v 1 - v 0) (v 2 - v 0) ≠ 0) :
    triangle_utils.get_vertex_angle v 0 + triangle_utils.get_vertex_angle v 1 +
      triangle_utils.get_vertex_angle v 2 = 180 ∧
    |triangle_utils.get_vertex_angle v 0 + triangle_utils.get_vertex_angle v 1 +
      triangle_utils.get_vertex_angle v 2 - 180| ≤ 1e-4 := by
  have h10 : v 1 ≠ v 0 := by
    intro he
    apply h
    rw [he]
    simp [cross]
  have h20 : v 2 ≠ v 0 := by
    intro he
    apply h
    rw [he]
    simp [cross]
  have h10E : toE2 (v 1) ≠ toE2 (v 0) := fun he => h10 (toE2_injective he)
  have h20E : toE2 (v 2) ≠ toE2 (v 0) := fun he => h20 (toE2_injective he)
  have H := EuclideanGeometry.angle_add_angle_add_angle_eq_pi h10E h20E
  have heq : triangle_utils.get_vertex_angle v 0 + triangle_utils.get_vertex_angle v 1 +
      triangle_utils.get_vertex_angle v 2 = 180 := by
    rw [get_vertex_angle_eq_angle v 0, get_vertex_angle_eq_angle v 1,
      get_vertex_angle_eq_angle v 2]
    simp only [show ((0 : Fin 3) - 1) = 2 from rfl, show ((0 : Fin 3) + 1) = 1 from rfl,
      show ((1 : Fin 3) - 1) = 0 from rfl, show ((1 : Fin 3) + 1) = 2 from rfl,
      show ((2 : Fin 3) - 1) = 1 from rfl, show ((2 : Fin 3) + 1) = 0 from rfl]
    rw [degrees, degrees, degrees]
    field_simp
    linear_combination 180 * H
  exact ⟨heq, by rw [heq]; norm_num⟩

/-- Witness for C6 at the right triangle `(0,0), (1,0), (0,1)`. -/
theorem vertex_angles_sum_180_witness :
    cross ((![⟨0, 0⟩, ⟨1, 0⟩, ⟨0, 1⟩] : Fin 3 → Pt) 1 - (![⟨0, 0⟩, ⟨1, 0⟩, ⟨0, 1⟩] : Fin 3 → Pt) 0)
        ((![⟨0, 0⟩, ⟨1, 0⟩, ⟨0, 1⟩] : Fin 3 → Pt) 2 - (![⟨0, 0⟩, ⟨1, 0⟩, ⟨0, 1⟩] : Fin 3 → Pt) 0) ≠ 0 ∧
    triangle_utils.get_vertex_angle ![⟨0, 0⟩, ⟨1, 0⟩, ⟨0, 1⟩] 0 +
      triangle_utils.get_vertex_angle ![⟨0, 0⟩, ⟨1, 0⟩, ⟨0, 1⟩] 1 +
      triangle_utils.get_vertex_angle ![⟨0, 0⟩, ⟨1, 0⟩, ⟨0, 1⟩] 2 = 180 := by
  have hne : cross ((![⟨0, 0⟩, ⟨1, 0⟩, ⟨0, 1⟩] : Fin 3 → Pt) 1 - (![⟨0, 0⟩, ⟨1, 0⟩, ⟨0, 1⟩] : Fin 3 → Pt) 0)
      ((![⟨0, 0⟩, ⟨1, 0⟩, ⟨0, 1⟩] : Fin 3 → Pt) 2 - (![⟨0, 0⟩, ⟨1, 0⟩, ⟨0, 1⟩] : Fin 3 → Pt) 0) ≠ 0 := by
    simp [cross]
  exact ⟨hne, (vertex_angles_sum_180 ![⟨0, 0⟩, ⟨1, 0⟩, ⟨0, 1⟩] hne).1⟩

end ProgGraphics
